import Mathlib

/-!
# Shallow embedding of `segment_history.py`

This file embeds the core transformation pipeline of the repository's
`segment_history.py` in Lean 4 and proves properties of it:

* tolerant extraction of HTTP headers from a pasted cURL command
  (`parse_curl_headers` and its inner `_store`),
* assembly of the outgoing header set with credential precedence
  (`_build_headers`),
* reduction of effort records to one best record per (segment, year)
  key (`efforts_to_sheet_rows`, reduction phase),
* formatting of numeric and time fields (`_format_elapsed_time`,
  `_round_metric`) and sheet-row assembly,
* segment-id extraction from spreadsheet links (`_segment_id_from_link`,
  `extract_segment_ids`).

Modelling conventions:

* Python scalar values that flow through effort records are modelled by
  `Value`: `none` stands for both an absent key and Python `None` (the
  code only ever reads them through `dict.get`, which identifies the
  two), `str` for strings, and `num q` for a numeric value whose decimal
  literal is the exact rational `q`.  Machine floats are modelled by the
  exact rational of their decimal literal; `str(float)` in Python
  round-trips the shortest decimal literal, so `Decimal(str(value))`
  recovers exactly that rational.  Special floating values (`nan`,
  `inf`) and non-decimal spellings are outside the modelled universe.
* Fallible Python code (an uncaught exception) is modelled with
  `Except`.
* `dict` with string keys is modelled by an insertion-ordered
  association list with unique keys (`alSet` updates in place or
  appends, exactly like CPython dict assignment); a Python `set` used
  only for membership is modelled by a list queried with `∈`.
* Tokenisation by `shlex.split` is an external boundary: the scanner
  `parseCurlTokens` is embedded from the token level down, and claims
  about shell-command strings are stated over the token lists that
  `shlex` produces for them.
-/

set_option autoImplicit false
set_option maxRecDepth 40000

namespace SegmentHistory

/-- A Python scalar value as it appears in an effort record.  `num q`
with `q.den = 1` models a Python `int`; a non-integral `q` models a
float through its (shortest, round-tripping) decimal literal. -/
inductive Value where
  | none
  | str (s : String)
  | num (q : ℚ)
  deriving DecidableEq, Repr, Inhabited

/-- Python truthiness on the modelled values: `None`, `""` and `0` are
falsy, everything else truthy. -/
def Value.truthy : Value → Bool
  | .none => false
  | .str s => decide (s ≠ "")
  | .num q => decide (q ≠ 0)

/-- Decidable equality for `Except` results, so that concrete outcomes
can be checked by evaluation. -/
instance {ε α : Type} [DecidableEq ε] [DecidableEq α] :
    DecidableEq (Except ε α) := fun a b =>
  match a, b with
  | .ok x, .ok y =>
      if h : x = y then isTrue (congrArg Except.ok h)
      else isFalse (fun hh => h (Except.ok.inj hh))
  | .error x, .error y =>
      if h : x = y then isTrue (congrArg Except.error h)
      else isFalse (fun hh => h (Except.error.inj hh))
  | .ok _, .error _ => isFalse (fun hh => Except.noConfusion hh)
  | .error _, .ok _ => isFalse (fun hh => Except.noConfusion hh)

/-! ## Association lists: the model of `dict` -/

section AssocOps

variable {κ β : Type} [DecidableEq κ]

/-- `dict.get(k)`: first (= unique) binding of the key. -/
def alGet (m : List (κ × β)) (k : κ) : Option β :=
  match m with
  | [] => Option.none
  | (k', v) :: rest => if k' = k then some v else alGet rest k

/-- `dict[k] = v`: update the existing binding in place, else append. -/
def alSet (m : List (κ × β)) (k : κ) (v : β) : List (κ × β) :=
  match m with
  | [] => [(k, v)]
  | (k', v') :: rest =>
      if k' = k then (k', v) :: rest else (k', v') :: alSet rest k v

/-- `dict.get(k, d)`. -/
def alGetD (m : List (κ × β)) (k : κ) (d : β) : β :=
  (alGet m k).getD d

end AssocOps

/-! ## Character-level string helpers

The Python string methods used by the code (`strip`, `lower`,
`rstrip("/")`, `split`, `isdigit`, `startswith`) are modelled over the
character list of a `String`, restricted to ASCII semantics. -/

/-- ASCII whitespace, as stripped by Python `str.strip()`. -/
def isSpc (c : Char) : Bool :=
  c = ' ' ∨ c = '\t' ∨ c = '\n' ∨ c = '\r' ∨ c = '\x0b' ∨ c = '\x0c'

def isDigitCh (c : Char) : Bool :=
  '0' ≤ c ∧ c ≤ '9'

/-- ASCII lower-casing of one character. -/
def lcChar (c : Char) : Char :=
  if 'A' ≤ c ∧ c ≤ 'Z' then Char.ofNat (c.toNat + 32) else c

def trimChars (l : List Char) : List Char :=
  ((l.dropWhile isSpc).reverse.dropWhile isSpc).reverse

/-- Python `str.strip()`. -/
def pyStrip (s : String) : String :=
  ⟨trimChars s.data⟩

/-- Python `str.lower()` (ASCII). -/
def pyLower (s : String) : String :=
  ⟨s.data.map lcChar⟩

/-- Python `str.rstrip("/")`. -/
def rstripSlash (s : String) : String :=
  ⟨(s.data.reverse.dropWhile (fun c => c = '/')).reverse⟩

/-- `chPref p l` tests whether `p` is a prefix of `l`. -/
def chPref : List Char → List Char → Bool
  | [], _ => true
  | a :: as, l =>
      match l with
      | [] => false
      | b :: bs => if a = b then chPref as bs else false

/-- Python `str.startswith(p)`. -/
def pyStartsWith (s p : String) : Bool :=
  chPref p.data s.data

/-- `len(s) > 2`, tested structurally on the characters. -/
def strLenGt2 (s : String) : Bool :=
  match s.data with
  | _ :: _ :: _ :: _ => true
  | _ => false

/-- Split a character list at every occurrence of `sep` (Python
`str.split(sep)` for a one-character separator, over chars). -/
def splitCh (sep : Char) (l : List Char) : List (List Char) :=
  match l with
  | [] => [[]]
  | c :: rest =>
      let r := splitCh sep rest
      if c = sep then [] :: r
      else
        match r with
        | [] => [[c]]
        | p :: ps => (c :: p) :: ps

/-- `s.split(sep, 1)[0]`: the part before the first occurrence of `sep`
(the whole string when `sep` is absent). -/
def beforeFirst (sep : Char) (s : String) : String :=
  ⟨s.data.takeWhile (fun c => c ≠ sep)⟩

/-- `s.split(sep, 1)[1]`: the part after the first occurrence of `sep`. -/
def afterFirst (sep : Char) (s : String) : String :=
  ⟨(s.data.dropWhile (fun c => c ≠ sep)).drop 1⟩

def containsCh (s : String) (c : Char) : Bool :=
  s.data.contains c

/-- Python `str.isdigit()` (ASCII digits; nonempty). -/
def pyIsDigit (s : String) : Bool :=
  (s.data ≠ []) ∧ s.data.all isDigitCh

/-! ## Numeric primitives -/

/-- Value of a digit string. -/
def digitsToNat (l : List Char) : ℕ :=
  l.foldl (fun n c => 10 * n + (c.toNat - 48)) 0

/-- Optional sign prefix: the sign factor and the remaining characters. -/
def parseSign : List Char → ℤ × List Char
  | '+' :: cs => (1, cs)
  | '-' :: cs => (-1, cs)
  | cs => (1, cs)

/-- Exponent tail of a decimal literal (after the `e`/`E`). -/
def parseExpTail (sgn : ℤ) (mant : ℚ) (cs : List Char) : Option ℚ :=
  let p := parseSign cs
  let ed := p.2.takeWhile isDigitCh
  let rest := p.2.dropWhile isDigitCh
  if ed = [] ∨ rest ≠ [] then Option.none
  else some ((sgn : ℚ) * mant * (10 : ℚ) ^ (p.1 * (digitsToNat ed : ℤ)))

/-- Parse an ordinary finite decimal literal (optional sign, digits,
optional fraction, optional exponent, surrounding whitespace allowed),
as accepted by both `float(...)` and `Decimal(...)` in Python.  Returns
`none` exactly when those constructors would raise on the modelled
universe of literals. -/
def decimalParse (s : String) : Option ℚ :=
  let p0 := parseSign (trimChars s.data)
  let ip := p0.2.takeWhile isDigitCh
  let cs1 := p0.2.dropWhile isDigitCh
  let fpcs :=
    match cs1 with
    | '.' :: cs2 => (cs2.takeWhile isDigitCh, cs2.dropWhile isDigitCh)
    | _ => ([], cs1)
  if ip = [] ∧ fpcs.1 = [] then Option.none
  else
    let mant : ℚ :=
      (digitsToNat ip : ℚ) + (digitsToNat fpcs.1 : ℚ) / (10 : ℚ) ^ fpcs.1.length
    match fpcs.2 with
    | [] => some ((p0.1 : ℚ) * mant)
    | 'e' :: cs2 => parseExpTail p0.1 mant cs2
    | 'E' :: cs2 => parseExpTail p0.1 mant cs2
    | _ => Option.none

/-- Python 3 built-in `round` to an integer: round to nearest, ties to
even (banker's rounding). -/
def pythonRound (q : ℚ) : ℤ :=
  if q - (⌊q⌋ : ℚ) < 1 / 2 then ⌊q⌋
  else if 1 / 2 < q - (⌊q⌋ : ℚ) then ⌊q⌋ + 1
  else if Even ⌊q⌋ then ⌊q⌋ else ⌊q⌋ + 1

/-- `Decimal.to_integral_value(rounding=ROUND_HALF_UP)`: round to
nearest, ties away from zero. -/
def roundHalfUpQ (q : ℚ) : ℤ :=
  if 0 ≤ q then ⌊q + 1 / 2⌋ else -⌊-q + 1 / 2⌋

/-- Python `f"{n:02d}"`. -/
def pad2 (n : ℤ) : String :=
  let s := toString n
  if s.length < 2 then "0" ++ s else s

/-- `divmod(total, 60)` (floor division) rendered as `MM:SS`. -/
def mmss (total : ℤ) : String :=
  pad2 (total.fdiv 60) ++ ":" ++ pad2 (total.fmod 60)

/-! ## `_format_elapsed_time` and `_round_metric` -/

/-- Embeds `_format_elapsed_time`.  `None` yields `""`; a numeric value
goes through built-in `round` and `divmod`.  Python `round()` on a
string raises `TypeError` (strings do not define `__round__`); the
`error` case models that uncaught exception. -/
def format_elapsed_time : Value → Except String String
  | .none => .ok ""
  | .num q => .ok (mmss (pythonRound q))
  | .str _ => .error "TypeError: type str doesnt define __round__ method"

/-- Embeds `_round_metric` (inner function of `efforts_to_sheet_rows`):
`None` or `""` yield `""`; otherwise `Decimal(str(value))` — which for a
numeric value recovers its decimal literal exactly, and for a string
parses it — is rounded `ROUND_HALF_UP` to an integer and rendered;
an unparseable string (`InvalidOperation`) yields `""`. -/
def round_metric : Value → String
  | .none => ""
  | .str s =>
      if s = "" then ""
      else
        match decimalParse s with
        | Option.none => ""
        | some q => toString (roundHalfUpQ q)
  | .num q => toString (roundHalfUpQ q)

/-! ## `parse_curl_headers`

`shlex.split` tokenisation (and the continuation-marker normalisation
feeding it) is the external boundary; the embedded scanner consumes the
resulting token list.  The claims about shell-command strings are stated
over the token lists `shlex` produces for them (a singly-quoted shell
word becomes one token with the quotes removed). -/

/-- Embeds the inner `_store` of `parse_curl_headers`: values without a
colon are dropped, the part before the first colon is stripped and
lower-cased as the name, the remainder is stripped as the value, and the
pair is stored unless the name is empty. -/
def store (raw : String) (headers : List (String × String)) :
    List (String × String) :=
  if raw = "" ∨ ¬ containsCh raw ':' then headers
  else
    let headerName := pyLower (pyStrip (beforeFirst ':' raw))
    if headerName = "" then headers
    else alSet headers headerName (pyStrip (afterFirst ':' raw))

/-- `if header_value: _store(header_value.strip())` at the bottom of the
scan loop. -/
def storeHeaderValue (headerValue : String) (headers : List (String × String)) :
    List (String × String) :=
  if headerValue ≠ "" then store (pyStrip headerValue) headers else headers

/-- The cookie arm at the bottom of the scan loop: strip, then store the
text under `"cookie"` unless it is empty or begins with `@`. -/
def storeCookieValue (cookieValue : String) (headers : List (String × String)) :
    List (String × String) :=
  if cookieValue ≠ "" then
    let cookieText := pyStrip cookieValue
    if cookieText ≠ "" ∧ ¬ pyStartsWith cookieText "@" then
      alSet headers "cookie" cookieText
    else headers
  else headers

/-- The `while idx < len(tokens)` scan of `parse_curl_headers`: the
space-separated forms (`-H v`, `--header v`, `-b v`, `--cookie v`)
consume the following token even when its value turns out falsy; the
`=`-joined long forms split the token itself on its first `=`; the
concatenated short forms (`-Hv`, `-bv`) use the suffix after the flag. -/
def parseCurlTokens : List String → List (String × String) → List (String × String)
  | [], headers => headers
  | token :: rest, headers =>
      let lowered := pyLower token
      if token = "-H" then
        match rest with
        | [] => headers
        | v :: rest2 => parseCurlTokens rest2 (storeHeaderValue v headers)
      else if lowered = "--header" then
        match rest with
        | [] => headers
        | v :: rest2 => parseCurlTokens rest2 (storeHeaderValue v headers)
      else if pyStartsWith lowered "--header=" then
        parseCurlTokens rest (storeHeaderValue (afterFirst '=' token) headers)
      else if pyStartsWith token "-H" && strLenGt2 token then
        parseCurlTokens rest (storeHeaderValue ⟨token.data.drop 2⟩ headers)
      else if token = "-b" then
        match rest with
        | [] => headers
        | v :: rest2 => parseCurlTokens rest2 (storeCookieValue v headers)
      else if lowered = "--cookie" then
        match rest with
        | [] => headers
        | v :: rest2 => parseCurlTokens rest2 (storeCookieValue v headers)
      else if pyStartsWith lowered "--cookie=" then
        parseCurlTokens rest (storeCookieValue (afterFirst '=' token) headers)
      else if pyStartsWith token "-b" && strLenGt2 token then
        parseCurlTokens rest (storeCookieValue ⟨token.data.drop 2⟩ headers)
      else parseCurlTokens rest headers

/-- Embeds `parse_curl_headers` from the `shlex` token list down. -/
def parse_curl_headers (tokens : List String) : List (String × String) :=
  parseCurlTokens tokens []

/-! ## `_build_headers` -/

def DEFAULT_USER_AGENT : String :=
  "Mozilla/5.0 (Macintosh; Intel Mac OS X 10_15_7) " ++
  "AppleWebKit/537.36 (KHTML, like Gecko) Chrome/142.0.0.0 Safari/537.36"

/-- `SEGMENT_ID`: the module-level default (the `STRAVA_SEGMENT_ID`
environment override is fixed to its absent state, giving the hard-coded
default). -/
def SEGMENT_ID : String := "4580190"

/-- The final outgoing header set returned by `_build_headers` (a dict
with six fixed keys, modelled as a record). -/
structure Headers where
  accept : String
  cookie : String
  referer : String
  userAgent : String
  csrfToken : String
  requestedWith : String
  deriving DecidableEq, Repr

/-- The environment and extracted-header tiers of `_header_value`: the
stripped environment variable when nonempty, else the stripped extracted
curl header (absent → `""`). -/
def headerEnvTier (env : String → Option String)
    (curlHeaders : List (String × String)) (envVar headerKey : String) :
    String :=
  if pyStrip ((env envVar).getD "") ≠ "" then pyStrip ((env envVar).getD "")
  else pyStrip ((alGet curlHeaders headerKey).getD "")

/-- Embeds the inner `_header_value` of `_build_headers`: explicit
argument (stripped) when truthy and nonblank, else the environment and
extracted-header tiers. -/
def headerValueOf (env : String → Option String)
    (curlHeaders : List (String × String)) (explicit : Option String)
    (envVar headerKey : String) : String :=
  match explicit with
  | some e =>
      if e ≠ "" ∧ pyStrip e ≠ "" then pyStrip e
      else headerEnvTier env curlHeaders envVar headerKey
  | Option.none => headerEnvTier env curlHeaders envVar headerKey

/-- Embeds `_build_headers`.  The two external collaborators —
`_load_curl_headers()` (the curl snippet file) and `os.getenv` — are
passed in as the extracted header map and the environment lookup.  The
`error` cases model the two `ValueError`s, raised in source order
(cookie first). -/
def build_headers (env : String → Option String)
    (curlHeaders : List (String × String))
    (cookieHeader csrfToken : Option String) (segmentId : String) :
    Except String Headers :=
  let headerCookies :=
    headerValueOf env curlHeaders cookieHeader "STRAVA_COOKIE_HEADER" "cookie"
  let headerCsrf :=
    headerValueOf env curlHeaders csrfToken "STRAVA_CSRF_TOKEN" "x-csrf-token"
  let userAgent :=
    let envUa := pyStrip ((env "STRAVA_USER_AGENT").getD "")
    if envUa ≠ "" then envUa
    else
      match alGet curlHeaders "user-agent" with
      | some ua => if ua ≠ "" then ua else DEFAULT_USER_AGENT
      | Option.none => DEFAULT_USER_AGENT
  if headerCookies = "" then .error "A Cookie header is required"
  else if headerCsrf = "" then .error "A CSRF token is required"
  else
    .ok
      { accept := "application/javascript"
        cookie := headerCookies
        referer := "https://www.strava.com/segments/" ++ segmentId
        userAgent := userAgent
        csrfToken := headerCsrf
        requestedWith := "XMLHttpRequest" }

/-! ## `_segment_id_from_link` and `extract_segment_ids` -/

/-- `s.split(sep)[-1]`: the (possibly empty) part after the last
occurrence of `sep`. -/
def lastSplitPart (sep : Char) (s : String) : String :=
  ⟨(s.data.reverse.takeWhile (fun c => c ≠ sep)).reverse⟩

/-- Embeds `_segment_id_from_link`: strip, drop trailing slashes, take
the chunk after the last remaining `/`, cut a `?` query suffix and a `#`
fragment suffix within that chunk, and keep the result only when it is
purely numeric. -/
def segment_id_from_link (link : String) : String :=
  if link = "" then ""
  else
    let cleaned := pyStrip link
    if cleaned = "" then ""
    else
      let cleaned2 := rstripSlash cleaned
      let lastPart := lastSplitPart '/' cleaned2
      let lastPart2 :=
        if containsCh lastPart '?' then beforeFirst '?' lastPart else lastPart
      let lastPart3 :=
        if containsCh lastPart2 '#' then beforeFirst '#' lastPart2 else lastPart2
      if pyIsDigit lastPart3 then lastPart3 else ""

/-- A metadata row from the spreadsheet export (`csv.DictReader` row):
column name to cell text. -/
abbrev MetaRow := List (String × String)

/-- `_segment_id_from_link((row.get("Segment") or "").strip())`. -/
def sidOfRow (row : MetaRow) : String :=
  segment_id_from_link (pyStrip ((alGet row "Segment").getD ""))

/-- The loop of `extract_segment_ids`; the Python `set` named `seen` is
modelled by the list of already-seen ids queried with membership. -/
def extractSegmentIdsGo : List MetaRow → List String → List String
  | [], _ => []
  | row :: rest, seen =>
      let sid := sidOfRow row
      if sid ≠ "" ∧ sid ∉ seen then sid :: extractSegmentIdsGo rest (sid :: seen)
      else extractSegmentIdsGo rest seen

/-- Embeds `extract_segment_ids`. -/
def extract_segment_ids (rows : List MetaRow) : List String :=
  extractSegmentIdsGo rows []

/-- Keep the first occurrence of every element, in order: each head is
kept and its later duplicates are filtered out of the deduplicated
tail.  This is the claim-side description of first-seen-order
deduplication. -/
def dedupFirst {α : Type} [DecidableEq α] : List α → List α
  | [] => []
  | x :: xs => x :: (dedupFirst xs).filter (fun y => decide (y ≠ x))

/-! ## `efforts_to_sheet_rows` -/

/-- One effort record, holding exactly the fields the code reads.  A
field equal to `Value.none` models both an absent key and an explicit
`None` (every field is read through `dict.get`).  `segmentNestedId`
models `(effort.get("segment") or {}).get("id")`.  The two date fields
are modelled as strings with `""` for absent/None (the code only tests
their truthiness and slices them). -/
structure Effort where
  startDateLocal : String := ""
  startDate : String := ""
  segmentNestedId : Value := .none
  segmentId : Value := .none
  elapsedTime : Value := .none
  effortId : Value := .none
  averageWatts : Value := .none
  avgWatts : Value := .none
  watts : Value := .none
  averageHeartrate : Value := .none
  averageHr : Value := .none
  avgHr : Value := .none
  averageCadence : Value := .none
  avgCadence : Value := .none
  deriving DecidableEq, Repr, Inhabited

/-- Fractional decimal digits of `0 ≤ r < 1` (finite for the modelled
decimal literals); `fuel` bounds the expansion. -/
def fracDigits : ℕ → ℚ → List Char
  | 0, _ => []
  | fuel + 1, r =>
      if r = 0 then []
      else
        let r10 := r * 10
        let d := ⌊r10⌋
        Char.ofNat (48 + d.toNat) :: fracDigits fuel (r10 - (d : ℚ))

/-- Python `str(...)` on a modelled value: an integral number (a Python
`int`) prints as an integer, a non-integral one (a float) as its exact
decimal literal. -/
def pyStr : Value → String
  | .none => "None"
  | .str s => s
  | .num q =>
      if q.den = 1 then toString q.num
      else
        let sgn := if q < 0 then "-" else ""
        let a := |q|
        sgn ++ toString ⌊a⌋ ++ "." ++ ⟨fracDigits 40 (a - (⌊a⌋ : ℚ))⟩

/-- `a or b or ...` over effort-field values: the first truthy value,
else the final `""` of the chain. -/
def firstTruthy : List Value → Value
  | [] => .str ""
  | v :: rest => if v.truthy then v else firstTruthy rest

/-- `effort.get("start_date_local") or effort.get("start_date") or ""`. -/
def dateStrOf (e : Effort) : String :=
  if e.startDateLocal ≠ "" then e.startDateLocal
  else if e.startDate ≠ "" then e.startDate
  else ""

/-- `date_str[:4] if len(date_str) >= 4 else ""`. -/
def yearOf (e : Effort) : String :=
  let d := dateStrOf e
  if 4 ≤ d.length then ⟨d.data.take 4⟩ else ""

/-- `str((effort.get("segment") or {}).get("id") or effort.get("segment_id")
or SEGMENT_ID)`. -/
def segmentKeyOf (e : Effort) : String :=
  pyStr (firstTruthy [e.segmentNestedId, e.segmentId, .str SEGMENT_ID])

/-- The aggregation key `(segment_id_str, year)`. -/
def keyOf (e : Effort) : String × String :=
  (segmentKeyOf e, yearOf e)

/-- Embeds `_elapsed_seconds`: `float(value)` with `None` and
unparseable values mapped to `float("inf")`; `Option.none` models the
infinity. -/
def elapsed_seconds : Value → Option ℚ
  | .none => Option.none
  | .num q => some q
  | .str s => decimalParse s

/-- Strict `<` on elapsed seconds where `Option.none` is `+∞`; in
particular `∞ < ∞` and `x < x` are false, so ties keep the currently
retained record. -/
def elapsedLt : Option ℚ → Option ℚ → Bool
  | some a, some b => decide (a < b)
  | some _, Option.none => true
  | Option.none, _ => false

/-- One iteration of the aggregation loop of `efforts_to_sheet_rows`: a
first record for its key is retained (key appended to the discovery
order), a later record replaces the retained one only on strictly
smaller elapsed time.  The Python pair `best_by_year` (dict) plus
`order` (list) is modelled by a single insertion-ordered association
list: `order` always equals the dict's key insertion order. -/
def reduceStep (best : List ((String × String) × Effort)) (e : Effort) :
    List ((String × String) × Effort) :=
  let k := keyOf e
  match alGet best k with
  | Option.none => best ++ [(k, e)]
  | some existing =>
      if elapsedLt (elapsed_seconds e.elapsedTime)
          (elapsed_seconds existing.elapsedTime) then
        alSet best k e
      else best

/-- The whole first loop of `efforts_to_sheet_rows`. -/
def reduceEfforts (efforts : List Effort) : List ((String × String) × Effort) :=
  efforts.foldl reduceStep []

/-- `(navn_value or "NAVN").strip() or "NAVN"`. -/
def navnColumn (navnValue : Option String) : String :=
  let base :=
    match navnValue with
    | some s => if s ≠ "" then s else "NAVN"
    | Option.none => "NAVN"
  if pyStrip base ≠ "" then pyStrip base else "NAVN"

/-- The effort URL: built only when the effort id is truthy. -/
def effortUrl (e : Effort) : String :=
  if e.effortId.truthy then
    "https://www.strava.com/segment_efforts/" ++ pyStr e.effortId
  else ""

/-- `effort.get("average_watts") or effort.get("avg_watts") or
effort.get("watts") or ""`. -/
def wattsValue (e : Effort) : Value :=
  firstTruthy [e.averageWatts, e.avgWatts, e.watts]

/-- `effort.get("average_heartrate") or effort.get("average_hr") or
effort.get("avg_hr") or ""`. -/
def bpmValue (e : Effort) : Value :=
  firstTruthy [e.averageHeartrate, e.averageHr, e.avgHr]

/-- `effort.get("average_cadence") or effort.get("avg_cadence") or ""`. -/
def cadenceValue (e : Effort) : Value :=
  firstTruthy [e.averageCadence, e.avgCadence]

/-- The body of the second loop of `efforts_to_sheet_rows`: one
tab-joined 8-field row for the retained effort of one key; fails iff
`_format_elapsed_time` raises. -/
def formatRow (nameMap : List (String × String)) (navnCol : String)
    (k : String × String) (e : Effort) : Except String String := do
  let elapsed ← format_elapsed_time e.elapsedTime
  pure (String.intercalate "\t"
    [k.2, alGetD nameMap k.1 k.1, navnCol, elapsed, effortUrl e,
      round_metric (wattsValue e), round_metric (bpmValue e),
      round_metric (cadenceValue e)])

/-- Embeds `efforts_to_sheet_rows`: reduce, then format each retained
record in key discovery order.  A `None` name map is the empty map
(`segment_name_map or` replaces it with an empty dict); an uncaught
exception while formatting one row aborts the whole call, which the
`Except` propagation models. -/
def efforts_to_sheet_rows (efforts : List Effort)
    (segmentNameMap : List (String × String)) (navnValue : Option String) :
    Except String (List String) :=
  (reduceEfforts efforts).mapM
    (fun kv => formatRow segmentNameMap (navnColumn navnValue) kv.1 kv.2)

/-! ## Claim-side reduction (the spec's description of the reducer) -/

/-- The claim's replacement rule: a later record replaces the retained
one only when its elapsed time is strictly smaller (missing/unparseable
compares as infinity), so exact ties keep the record already retained. -/
def betterOf (best e : Effort) : Effort :=
  if elapsedLt (elapsed_seconds e.elapsedTime)
      (elapsed_seconds best.elapsedTime) then e
  else best

/-- The record the claim says a key retains: the fold of the replacement
rule over that key's records in input order, starting from the first. -/
def groupBest : List Effort → Effort
  | [] => default
  | e :: rest => rest.foldl betterOf e

/-- The claim's description of the whole reduction: one entry per
distinct key in first-appearance order, each carrying its group's
retained record. -/
def claimReduce (efforts : List Effort) : List ((String × String) × Effort) :=
  (dedupFirst (efforts.map keyOf)).map
    (fun k => (k, groupBest (efforts.filter (fun e => decide (keyOf e = k)))))

/-- The three effort records of C1's example: segment 123 in 2024 with
elapsed 150 then 120, and segment 999 in 2024 with elapsed 200. -/
def c1Effort150 : Effort :=
  { startDateLocal := "2024-05-01T08:00:00Z", segmentNestedId := .num 123,
    elapsedTime := .num 150, effortId := .num 1 }

def c1Effort120 : Effort :=
  { startDateLocal := "2024-06-01T08:00:00Z", segmentNestedId := .num 123,
    elapsedTime := .num 120, effortId := .num 2 }

def c1Effort200 : Effort :=
  { startDateLocal := "2024-07-01T08:00:00Z", segmentNestedId := .num 999,
    elapsedTime := .num 200, effortId := .num 3 }

/-! ## Inputs and claim-side readings used by the claims -/

/-- A record whose `elapsed_time` is the non-numeric string "abc". -/
def malformedEffort : Effort :=
  { startDateLocal := "2024-01-02T00:00:00Z", segmentNestedId := .num 7,
    elapsedTime := .str "abc", effortId := .num 4 }

/-- A later, fully well-formed record under a different key. -/
def followingEffort : Effort :=
  { startDateLocal := "2024-07-01T08:00:00Z", segmentNestedId := .num 999,
    elapsedTime := .num 200, effortId := .num 3 }

/-- An effort whose highest-priority watts field holds 0 while the
lowest-priority one holds 211. -/
def zeroWattsEffort : Effort :=
  { startDateLocal := "2024-05-01T10:00:00Z"
    segmentNestedId := .num 555
    elapsedTime := .num 83
    effortId := .num 1
    averageWatts := .num 0
    watts := .num 211 }

/-- The claim's reading of `_segment_id_from_link`, following the spec's
words: strip whitespace, strip the query string (from `?`) and the
fragment (from `#`) from the URL, strip any trailing slash, then take
the last non-empty path segment and validate it is purely numeric. -/
def claimSegmentId (link : String) : String :=
  let noQuery := beforeFirst '?' (pyStrip link)
  let noFrag := beforeFirst '#' noQuery
  let lastPart := lastSplitPart '/' (rstripSlash noFrag)
  if pyIsDigit lastPart then lastPart else ""


/-! ## Association-list lemmas -/

section AssocLemmas

variable {κ β : Type} [DecidableEq κ]

theorem alGet_alSet_self (m : List (κ × β)) (k : κ) (v : β) :
    alGet (alSet m k v) k = some v := by
  induction m with
  | nil => simp [alGet, alSet]
  | cons p rest ih =>
      obtain ⟨k', v'⟩ := p
      by_cases h : k' = k
      · subst h
        simp [alGet, alSet]
      · simp [alGet, alSet, h, ih]

theorem alGet_alSet_ne (m : List (κ × β)) (k k' : κ) (v : β) (h : k ≠ k') :
    alGet (alSet m k v) k' = alGet m k' := by
  induction m with
  | nil => simp [alGet, alSet, h]
  | cons p rest ih =>
      obtain ⟨k0, v0⟩ := p
      by_cases h0 : k0 = k
      · subst h0
        simp [alGet, alSet, h]
      · simp only [alSet, if_neg h0, alGet]
        by_cases h1 : k0 = k'
        · simp [h1]
        · simp [h1, ih]

theorem alSet_alSet_self (m : List (κ × β)) (k : κ) (v1 v2 : β) :
    alSet (alSet m k v1) k v2 = alSet m k v2 := by
  induction m with
  | nil => simp [alSet]
  | cons p rest ih =>
      obtain ⟨k0, v0⟩ := p
      by_cases h0 : k0 = k
      · subst h0
        simp [alSet]
      · simp [alSet, h0, ih]

end AssocLemmas

/-! ## Rounding lemmas -/

theorem pythonRound_eq_of_near (q : ℚ) (z : ℤ) (h : |q - z| < 1 / 2) :
    pythonRound q = z := by
  rw [abs_lt] at h
  obtain ⟨h1, h2⟩ := h
  unfold pythonRound
  rcases le_or_lt (z : ℚ) q with hq | hq
  · have hf : ⌊q⌋ = z := by
      rw [Int.floor_eq_iff]
      refine ⟨hq, ?_⟩
      linarith
    rw [hf]
    rw [if_pos (by linarith)]
  · have hf : ⌊q⌋ = z - 1 := by
      rw [Int.floor_eq_iff]
      constructor
      · push_cast
        linarith
      · push_cast
        linarith
    rw [hf]
    rw [if_neg (by push_cast; linarith), if_pos (by push_cast; linarith)]
    omega

theorem pythonRound_tie (z : ℤ) :
    pythonRound ((z : ℚ) + 1 / 2) = if Even z then z else z + 1 := by
  have hf : ⌊(z : ℚ) + 1 / 2⌋ = z := by
    rw [Int.floor_eq_iff]
    constructor
    · linarith
    · linarith
  unfold pythonRound
  rw [hf]
  rw [if_neg (by linarith), if_neg (by linarith)]

theorem roundHalfUpQ_eq_of_near (q : ℚ) (z : ℤ) (h : |q - z| < 1 / 2) :
    roundHalfUpQ q = z := by
  rw [abs_lt] at h
  obtain ⟨h1, h2⟩ := h
  unfold roundHalfUpQ
  split
  · rw [Int.floor_eq_iff]
    constructor
    · linarith
    · linarith
  · rw [neg_eq_iff_eq_neg, Int.floor_eq_iff]
    constructor
    · push_cast
      linarith
    · push_cast
      linarith

theorem roundHalfUpQ_tie_up (z : ℤ) (hz : 0 ≤ z) :
    roundHalfUpQ ((z : ℚ) + 1 / 2) = z + 1 := by
  unfold roundHalfUpQ
  have hpos : (0 : ℚ) ≤ (z : ℚ) + 1 / 2 := by
    have : (0 : ℚ) ≤ (z : ℚ) := by exact_mod_cast hz
    linarith
  rw [if_pos hpos]
  rw [Int.floor_eq_iff]
  constructor
  · push_cast
    linarith
  · push_cast
    linarith

theorem roundHalfUpQ_tie_down (z : ℤ) (hz : z ≤ 0) :
    roundHalfUpQ ((z : ℚ) - 1 / 2) = z - 1 := by
  unfold roundHalfUpQ
  have hneg : ¬ (0 : ℚ) ≤ (z : ℚ) - 1 / 2 := by
    have : (z : ℚ) ≤ 0 := by exact_mod_cast hz
    linarith
  rw [if_neg hneg, neg_eq_iff_eq_neg, Int.floor_eq_iff]
  constructor
  · push_cast
    linarith
  · push_cast
    linarith

/-! ## C3: elapsed-time rounding -/

/-- C3 counterexample: `_format_elapsed_time` uses the built-in
`round()`, which rounds the half-second tie `90.5` down to the even 90
("01:30"), while half-up rounding through the exact-decimal primitive
would give 91 ("01:31"). -/
theorem C3_counterexample_half_tie_rounds_even :
    format_elapsed_time (Value.num (181 / 2)) = Except.ok "01:30" ∧
    mmss (roundHalfUpQ (181 / 2)) = "01:31" := by
  constructor
  · with_unfolding_all rfl
  · with_unfolding_all rfl

/-- C3 amended: `_format_elapsed_time` rounds to the nearest whole
second with built-in `round()` — ties to the even integer, not half-up —
then formats `MM:SS` zero-padded; input 83 gives "01:23" and `None`
gives `""`, not "00:00". -/
theorem C3_amended_format_elapsed_time :
    format_elapsed_time Value.none = Except.ok "" ∧
    format_elapsed_time (Value.num 83) = Except.ok "01:23" ∧
    (∀ (q : ℚ) (z : ℤ), |q - z| < 1 / 2 →
      format_elapsed_time (Value.num q) = Except.ok (mmss z)) ∧
    (∀ z : ℤ, format_elapsed_time (Value.num ((z : ℚ) + 1 / 2)) =
      Except.ok (mmss (if Even z then z else z + 1))) := by
  refine ⟨rfl, by with_unfolding_all rfl, ?_, ?_⟩
  · intro q z h
    show Except.ok (mmss (pythonRound q)) = _
    rw [pythonRound_eq_of_near q z h]
  · intro z
    show Except.ok (mmss (pythonRound _)) = _
    rw [pythonRound_tie z]

/-- Witness for C3's amended theorem at concrete inputs: 83.2 seconds is
within half a second of 83 and formats as "01:23"; the tie 2.5 rounds to
the even 2. -/
theorem C3_amended_witness :
    format_elapsed_time (Value.num (416 / 5)) = Except.ok (mmss 83) ∧
    format_elapsed_time (Value.num ((2 : ℤ) + 1 / 2)) =
      Except.ok (mmss (if Even (2 : ℤ) then (2 : ℤ) else 2 + 1)) := by
  constructor
  · exact C3_amended_format_elapsed_time.2.2.1 (416 / 5) 83
      (by with_unfolding_all decide)
  · exact C3_amended_format_elapsed_time.2.2.2 2

/-! ## C4: metric rounding -/

/-- C4: `_round_metric` parses the value as an exact decimal and rounds
to the nearest integer half-up, ties away from zero (320.5 → "321",
89.7 → "90", and on the negative side -2.5 → -3); `None`, `""` and
unparseable strings give `""`, never "0". -/
theorem C4_round_metric_half_up_away_from_zero :
    round_metric (Value.num (641 / 2)) = "321" ∧
    round_metric (Value.num (897 / 10)) = "90" ∧
    round_metric Value.none = "" ∧
    round_metric (Value.str "") = "" ∧
    round_metric (Value.str "abc") = "" ∧
    (∀ s : String, decimalParse s = Option.none → round_metric (Value.str s) = "") ∧
    (∀ (q : ℚ) (z : ℤ), |q - z| < 1 / 2 → round_metric (Value.num q) = toString z) ∧
    (∀ z : ℤ, 0 ≤ z → round_metric (Value.num ((z : ℚ) + 1 / 2)) = toString (z + 1)) ∧
    (∀ z : ℤ, z ≤ 0 → round_metric (Value.num ((z : ℚ) - 1 / 2)) = toString (z - 1)) := by
  refine ⟨by with_unfolding_all rfl, by with_unfolding_all rfl, rfl, rfl,
    by with_unfolding_all rfl, ?_, ?_, ?_, ?_⟩
  · intro s h
    by_cases hs : s = ""
    · simp [round_metric, hs]
    · simp [round_metric, hs, h]
  · intro q z h
    show toString (roundHalfUpQ q) = toString z
    rw [roundHalfUpQ_eq_of_near q z h]
  · intro z hz
    show toString (roundHalfUpQ _) = _
    rw [roundHalfUpQ_tie_up z hz]
  · intro z hz
    show toString (roundHalfUpQ _) = _
    rw [roundHalfUpQ_tie_down z hz]

/-- Witness for C4 at concrete inputs: "watts" is unparseable and gives
`""`; 89.7 is within a half of 90; the ties 320.5 and -2.5 round away
from zero. -/
theorem C4_round_metric_witness :
    round_metric (Value.str "watts") = "" ∧
    round_metric (Value.num (897 / 10)) = toString (90 : ℤ) ∧
    round_metric (Value.num ((320 : ℤ) + 1 / 2)) = toString ((320 : ℤ) + 1) ∧
    round_metric (Value.num ((-2 : ℤ) - 1 / 2)) = toString ((-2 : ℤ) - 1) :=
  ⟨C4_round_metric_half_up_away_from_zero.2.2.2.2.2.1 "watts" (by decide),
   C4_round_metric_half_up_away_from_zero.2.2.2.2.2.2.1 (897 / 10) 90
     (by with_unfolding_all decide),
   C4_round_metric_half_up_away_from_zero.2.2.2.2.2.2.2.1 320 (by decide),
   C4_round_metric_half_up_away_from_zero.2.2.2.2.2.2.2.2 (-2) (by decide)⟩

/-! ## C2: malformed fields abort formatting -/

/-- C2 fails on the code: the reduction phase tolerates an `"abc"`
elapsed time (comparing it as infinity) and `_round_metric` degrades it
to `""`, but `_format_elapsed_time` calls built-in `round()` on the raw
value, which raises `TypeError` on any string — so one malformed record
aborts `efforts_to_sheet_rows` entirely and the following well-formed
record is never emitted. -/
theorem C2_malformed_elapsed_aborts_formatting :
    elapsed_seconds (Value.str "abc") = Option.none ∧
    round_metric (Value.str "abc") = "" ∧
    format_elapsed_time (Value.str "abc") =
      Except.error "TypeError: type str doesnt define __round__ method" ∧
    efforts_to_sheet_rows [malformedEffort, followingEffort] [] Option.none =
      Except.error "TypeError: type str doesnt define __round__ method" := by
  refine ⟨by decide, by decide, rfl, ?_⟩
  with_unfolding_all rfl

/-! ## C5: empty header values are stored -/

/-- C5 counterexample: the flag `-H 'Foo:'` (empty value after the
colon) DOES add an entry to the mapping — `_store` only requires the
name to be non-empty, so `foo ↦ ""` is stored. -/
theorem C5_counterexample_empty_value_stored :
    parse_curl_headers ["curl", "-H", "Foo:"] = [("foo", "")] ∧
    parse_curl_headers ["curl", "-H", "Foo:"] ≠ [] := by
  constructor <;> decide

/-- C5 amended: the header-flag value is stripped and split on its first
colon, the name is stripped and lower-cased, the value stripped; the
pair is stored iff the raw value contains a colon and the name is
non-empty — the value may be empty. -/
theorem C5_amended_store_requires_only_name :
    (∀ (v : String) (rest : List String) (m : List (String × String)),
      v ≠ "" →
      parseCurlTokens ("-H" :: v :: rest) m =
        parseCurlTokens rest (store (pyStrip v) m)) ∧
    (∀ (raw : String) (m : List (String × String)),
      containsCh raw ':' = true →
      pyLower (pyStrip (beforeFirst ':' raw)) ≠ "" →
      alGet (store raw m) (pyLower (pyStrip (beforeFirst ':' raw))) =
        some (pyStrip (afterFirst ':' raw))) ∧
    (∀ (raw : String) (m : List (String × String)),
      ¬ containsCh raw ':' = true → store raw m = m) ∧
    (∀ (raw : String) (m : List (String × String)),
      pyLower (pyStrip (beforeFirst ':' raw)) = "" → store raw m = m) ∧
    parse_curl_headers ["-H", "Foo:"] = [("foo", "")] := by
  refine ⟨?_, ?_, ?_, ?_, by decide⟩
  · intro v rest m hv
    show parseCurlTokens rest (storeHeaderValue v m) = _
    unfold storeHeaderValue
    rw [if_pos hv]
  · intro raw m hc hn
    have hraw : ¬ (raw = "" ∨ ¬ containsCh raw ':' = true) := by
      push_neg
      refine ⟨?_, hc⟩
      intro h
      subst h
      simp [containsCh] at hc
    unfold store
    rw [if_neg hraw]
    show alGet (if pyLower (pyStrip (beforeFirst ':' raw)) = "" then m
      else alSet m (pyLower (pyStrip (beforeFirst ':' raw)))
        (pyStrip (afterFirst ':' raw))) _ = _
    rw [if_neg hn]
    exact alGet_alSet_self m _ _
  · intro raw m h
    unfold store
    rw [if_pos (Or.inr h)]
  · intro raw m h
    unfold store
    by_cases h0 : raw = "" ∨ ¬ containsCh raw ':' = true
    · rw [if_pos h0]
    · rw [if_neg h0]
      show (if pyLower (pyStrip (beforeFirst ':' raw)) = "" then m
        else alSet m (pyLower (pyStrip (beforeFirst ':' raw)))
          (pyStrip (afterFirst ':' raw))) = m
      rw [if_pos h]

/-- Witness for C5's amended theorem: `-H 'Foo:'` goes through `_store`
on the stripped value; `Foo: bar` stores `foo ↦ bar`; a colon-free value
and an empty-name value store nothing. -/
theorem C5_amended_witness :
    parseCurlTokens ("-H" :: "Foo:" :: []) [] =
      parseCurlTokens [] (store (pyStrip "Foo:") []) ∧
    alGet (store "Foo: bar" []) "foo" = some "bar" ∧
    store "novalue" [] = [] ∧
    store " : x" [] = [] :=
  ⟨C5_amended_store_requires_only_name.1 "Foo:" [] [] (by decide),
   C5_amended_store_requires_only_name.2.1 "Foo: bar" [] (by decide) (by decide),
   C5_amended_store_requires_only_name.2.2.1 "novalue" [] (by decide),
   C5_amended_store_requires_only_name.2.2.2.1 " : x" [] (by decide)⟩

/-! ## C6: flag spellings -/

/-- C6: every spelling of the header family (`-H v`, `--header v`,
`--header=v`, `-Hv`) feeds the same value to the same store step, and
likewise for the cookie family (`-b v`, `--cookie v`, `--cookie=v`,
`-bv`); a cookie value whose stripped form begins with `@` stores
nothing; assigning the same header name again overwrites; and each
concrete spelling of the claim's examples produces exactly
`cookie ↦ a=b`. -/
theorem C6_flag_spelling_equivalence :
    (∀ (v : String) (rest : List String) (m : List (String × String)),
      parseCurlTokens ("-H" :: v :: rest) m =
        parseCurlTokens ("--header" :: v :: rest) m) ∧
    (∀ (v : String) (rest : List String) (m : List (String × String)),
      parseCurlTokens ("-H" :: v :: rest) m =
        parseCurlTokens (("--header=" ++ v) :: rest) m) ∧
    (∀ (c : Char) (cs : List Char) (rest : List String)
        (m : List (String × String)),
      parseCurlTokens ("-H" :: (⟨c :: cs⟩ : String) :: rest) m =
        parseCurlTokens (("-H" ++ (⟨c :: cs⟩ : String)) :: rest) m) ∧
    (∀ (v : String) (rest : List String) (m : List (String × String)),
      parseCurlTokens ("-b" :: v :: rest) m =
        parseCurlTokens ("--cookie" :: v :: rest) m) ∧
    (∀ (v : String) (rest : List String) (m : List (String × String)),
      parseCurlTokens ("-b" :: v :: rest) m =
        parseCurlTokens (("--cookie=" ++ v) :: rest) m) ∧
    (∀ (c : Char) (cs : List Char) (rest : List String)
        (m : List (String × String)),
      parseCurlTokens ("-b" :: (⟨c :: cs⟩ : String) :: rest) m =
        parseCurlTokens (("-b" ++ (⟨c :: cs⟩ : String)) :: rest) m) ∧
    (∀ (v : String) (rest : List String) (m : List (String × String)),
      pyStartsWith (pyStrip v) "@" = true →
      parseCurlTokens ("-b" :: v :: rest) m = parseCurlTokens rest m) ∧
    (∀ (m : List (String × String)) (k v1 v2 : String),
      alSet (alSet m k v1) k v2 = alSet m k v2) ∧
    parse_curl_headers ["curl", "-H", "Cookie: a=b"] = [("cookie", "a=b")] ∧
    parse_curl_headers ["curl", "--header", "Cookie: a=b"] = [("cookie", "a=b")] ∧
    parse_curl_headers ["curl", "--header=Cookie: a=b"] = [("cookie", "a=b")] ∧
    parse_curl_headers ["curl", "-HCookie: a=b"] = [("cookie", "a=b")] ∧
    parse_curl_headers ["curl", "-b", "a=b"] = [("cookie", "a=b")] ∧
    parse_curl_headers ["curl", "--cookie", "a=b"] = [("cookie", "a=b")] ∧
    parse_curl_headers ["curl", "--cookie=a=b"] = [("cookie", "a=b")] ∧
    parse_curl_headers ["curl", "-ba=b"] = [("cookie", "a=b")] ∧
    parse_curl_headers ["curl", "-b", "@cookies.txt"] = [] ∧
    parse_curl_headers ["curl", "-H", "Cookie: a=b", "-H", "Cookie: c=d"] =
      [("cookie", "c=d")] := by
  refine ⟨fun v rest m => rfl, ?_, ?_, fun v rest m => rfl, ?_, ?_, ?_,
    alSet_alSet_self, by decide, by decide, by decide, by decide, by decide,
    by decide, by decide, by decide, by decide, by decide⟩
  · intro v rest m
    cases rest <;> rfl
  · intro c cs rest m
    cases rest <;> rfl
  · intro v rest m
    cases rest <;> rfl
  · intro c cs rest m
    cases rest <;> rfl
  · intro v rest m h
    show parseCurlTokens rest (storeCookieValue v m) = parseCurlTokens rest m
    have hv : storeCookieValue v m = m := by
      unfold storeCookieValue
      by_cases hne : v ≠ ""
      · rw [if_pos hne]
        show (if pyStrip v ≠ "" ∧ ¬ pyStartsWith (pyStrip v) "@" = true
          then alSet m "cookie" (pyStrip v) else m) = m
        rw [if_neg]
        rintro ⟨-, hb⟩
        exact hb h
      · rw [if_neg hne]
    rw [hv]

/-- Witness for C6 at concrete inputs: an `@`-cookie stores nothing and
the concatenated `-H` spelling matches the spaced spelling. -/
theorem C6_flag_spelling_witness :
    parseCurlTokens ("-b" :: "@cookies.txt" :: []) [] = parseCurlTokens [] [] ∧
    parseCurlTokens ("-H" :: ("Cookie: a=b" : String) :: []) [] =
      parseCurlTokens (("-H" ++ ("Cookie: a=b" : String)) :: []) [] :=
  ⟨C6_flag_spelling_equivalence.2.2.2.2.2.2.1 "@cookies.txt" [] [] (by decide),
   C6_flag_spelling_equivalence.2.2.1 'C' "ookie: a=b".data [] []⟩

/-! ## C7: header assembly precedence and errors -/

/-- C7: each credential resolves by strict precedence explicit argument
(stripped) > environment variable (stripped) > extracted curl header
(stripped), a blank explicit argument behaving like an absent one;
user-agent resolves environment > extracted > hard-coded default (it has
no explicit-argument tier); an unresolved cookie raises the
cookie-naming configuration error, an unresolved CSRF token (with the
cookie resolved) raises the CSRF-naming one, and the two closed
instances show each case raises independently of the other. -/
theorem C7_header_precedence_and_errors :
    (∀ (env : String → Option String) (curl : List (String × String))
        (s envVar hk : String), pyStrip s ≠ "" →
      headerValueOf env curl (some s) envVar hk = pyStrip s) ∧
    (∀ (env : String → Option String) (curl : List (String × String))
        (s envVar hk : String), pyStrip s = "" →
      headerValueOf env curl (some s) envVar hk =
        headerValueOf env curl Option.none envVar hk) ∧
    (∀ (env : String → Option String) (curl : List (String × String))
        (envVar hk : String), pyStrip ((env envVar).getD "") ≠ "" →
      headerValueOf env curl Option.none envVar hk =
        pyStrip ((env envVar).getD "")) ∧
    (∀ (env : String → Option String) (curl : List (String × String))
        (envVar hk : String), pyStrip ((env envVar).getD "") = "" →
      headerValueOf env curl Option.none envVar hk =
        pyStrip ((alGet curl hk).getD "")) ∧
    (∀ (env : String → Option String) (curl : List (String × String))
        (ch ct : Option String) (sid : String) (hdrs : Headers),
      build_headers env curl ch ct sid = Except.ok hdrs →
      (pyStrip ((env "STRAVA_USER_AGENT").getD "") ≠ "" →
        hdrs.userAgent = pyStrip ((env "STRAVA_USER_AGENT").getD "")) ∧
      (pyStrip ((env "STRAVA_USER_AGENT").getD "") = "" →
        (∀ ua : String, alGet curl "user-agent" = some ua → ua ≠ "" →
          hdrs.userAgent = ua) ∧
        (alGet curl "user-agent" = Option.none ∨
            alGet curl "user-agent" = some "" →
          hdrs.userAgent = DEFAULT_USER_AGENT))) ∧
    (∀ (env : String → Option String) (curl : List (String × String))
        (ch ct : Option String) (sid : String),
      headerValueOf env curl ch "STRAVA_COOKIE_HEADER" "cookie" = "" →
      build_headers env curl ch ct sid =
        Except.error "A Cookie header is required") ∧
    (∀ (env : String → Option String) (curl : List (String × String))
        (ch ct : Option String) (sid : String),
      headerValueOf env curl ch "STRAVA_COOKIE_HEADER" "cookie" ≠ "" →
      headerValueOf env curl ct "STRAVA_CSRF_TOKEN" "x-csrf-token" = "" →
      build_headers env curl ch ct sid =
        Except.error "A CSRF token is required") ∧
    (∀ (env : String → Option String) (curl : List (String × String))
        (ch ct : Option String) (sid : String),
      headerValueOf env curl ch "STRAVA_COOKIE_HEADER" "cookie" ≠ "" →
      headerValueOf env curl ct "STRAVA_CSRF_TOKEN" "x-csrf-token" ≠ "" →
      ∃ hdrs : Headers, build_headers env curl ch ct sid = Except.ok hdrs ∧
        hdrs.cookie = headerValueOf env curl ch "STRAVA_COOKIE_HEADER" "cookie" ∧
        hdrs.csrfToken =
          headerValueOf env curl ct "STRAVA_CSRF_TOKEN" "x-csrf-token") ∧
    build_headers (fun _ => Option.none) [("x-csrf-token", "t")]
      Option.none Option.none "1" = Except.error "A Cookie header is required" ∧
    build_headers (fun _ => Option.none) [("cookie", "c")]
      Option.none Option.none "1" = Except.error "A CSRF token is required" := by
  refine ⟨?_, ?_, ?_, ?_, ?_, ?_, ?_, ?_, by decide, by decide⟩
  · intro env curl s envVar hk h
    have hs : s ≠ "" := by
      intro h0
      subst h0
      exact h rfl
    show (if s ≠ "" ∧ pyStrip s ≠ "" then pyStrip s
      else headerEnvTier env curl envVar hk) = pyStrip s
    rw [if_pos ⟨hs, h⟩]
  · intro env curl s envVar hk h
    show (if s ≠ "" ∧ pyStrip s ≠ "" then pyStrip s
      else headerEnvTier env curl envVar hk) = headerEnvTier env curl envVar hk
    rw [if_neg]
    rintro ⟨-, hb⟩
    exact hb h
  · intro env curl envVar hk h
    show headerEnvTier env curl envVar hk = _
    unfold headerEnvTier
    rw [if_pos h]
  · intro env curl envVar hk h
    show headerEnvTier env curl envVar hk = _
    unfold headerEnvTier
    rw [if_neg (by simpa using h)]
  · intro env curl ch ct sid hdrs hok
    simp only [build_headers] at hok
    by_cases hco : headerValueOf env curl ch "STRAVA_COOKIE_HEADER" "cookie" = ""
    · rw [if_pos hco] at hok
      cases hok
    · rw [if_neg hco] at hok
      by_cases hcs :
          headerValueOf env curl ct "STRAVA_CSRF_TOKEN" "x-csrf-token" = ""
      · rw [if_pos hcs] at hok
        cases hok
      · rw [if_neg hcs] at hok
        have hrec := Except.ok.inj hok
        subst hrec
        constructor
        · intro hua
          show (if pyStrip ((env "STRAVA_USER_AGENT").getD "") ≠ "" then _
            else _) = _
          rw [if_pos hua]
        · intro hua
          constructor
          · intro ua hget huane
            show (if pyStrip ((env "STRAVA_USER_AGENT").getD "") ≠ "" then _
              else _) = _
            rw [if_neg (by simpa using hua), hget]
            show (if ua ≠ "" then ua else DEFAULT_USER_AGENT) = ua
            rw [if_pos huane]
          · intro hget
            show (if pyStrip ((env "STRAVA_USER_AGENT").getD "") ≠ "" then _
              else _) = _
            rw [if_neg (by simpa using hua)]
            rcases hget with hget | hget
            · rw [hget]
            · rw [hget]
              show (if ("" : String) ≠ "" then ("" : String)
                else DEFAULT_USER_AGENT) = _
              rw [if_neg (by simp)]
  · intro env curl ch ct sid h
    simp only [build_headers]
    rw [if_pos h]
  · intro env curl ch ct sid hco hcs
    simp only [build_headers]
    rw [if_neg hco, if_pos hcs]
  · intro env curl ch ct sid hco hcs
    simp only [build_headers]
    rw [if_neg hco, if_neg hcs]
    exact ⟨_, rfl, rfl, rfl⟩

/-- Witness for C7: explicit cookie argument " c " beats the environment
value, the environment beats the extracted header, and both resolved
credentials give the ok outcome. -/
theorem C7_header_precedence_witness :
    headerValueOf (fun _ => some "env") [("cookie", "curl")] (some " c ")
      "STRAVA_COOKIE_HEADER" "cookie" = pyStrip " c " ∧
    headerValueOf (fun _ => some "env") [("cookie", "curl")] Option.none
      "STRAVA_COOKIE_HEADER" "cookie" =
      pyStrip ((some "env").getD "") ∧
    headerValueOf (fun _ => Option.none) [("cookie", "curl")] Option.none
      "STRAVA_COOKIE_HEADER" "cookie" =
      pyStrip ((alGet [("cookie", "curl")] "cookie").getD "") ∧
    build_headers (fun _ => Option.none) [("cookie", "curl")]
      (some "c") Option.none "9" = Except.error "A CSRF token is required" :=
  ⟨C7_header_precedence_and_errors.1 (fun _ => some "env")
     [("cookie", "curl")] " c " "STRAVA_COOKIE_HEADER" "cookie" (by decide),
   C7_header_precedence_and_errors.2.2.1 (fun _ => some "env")
     [("cookie", "curl")] "STRAVA_COOKIE_HEADER" "cookie" (by decide),
   C7_header_precedence_and_errors.2.2.2.1 (fun _ => Option.none)
     [("cookie", "curl")] "STRAVA_COOKIE_HEADER" "cookie" (by decide),
   C7_header_precedence_and_errors.2.2.2.2.2.2.1 (fun _ => Option.none)
     [("cookie", "curl")] (some "c") Option.none "9" (by decide) (by decide)⟩

/-! ## C10: falsy metric candidates fall through -/

/-- C10: the alternate-field `or` chains skip every falsy candidate —
`None`, `""` and the number 0 alike — so a higher-priority 0 yields to a
lower-priority non-zero value, and when every candidate is falsy the
chain produces `""` and the metric column is `""`, not "0"; the concrete
effort with `average_watts = 0` and `watts = 211` renders 211. -/
theorem C10_zero_metric_falls_through :
    Value.truthy (Value.num 0) = false ∧
    Value.truthy (Value.str "") = false ∧
    Value.truthy Value.none = false ∧
    (∀ (v : Value) (rest : List Value), v.truthy = false →
      firstTruthy (v :: rest) = firstTruthy rest) ∧
    (∀ vs : List Value, (∀ v ∈ vs, v.truthy = false) →
      round_metric (firstTruthy vs) = "") ∧
    (∀ e : Effort, e.averageWatts = Value.num 0 → e.avgWatts.truthy = false →
      e.watts.truthy = true → wattsValue e = e.watts) ∧
    efforts_to_sheet_rows [zeroWattsEffort] [] Option.none =
      Except.ok
        ["2024\t555\tNAVN\t01:23\thttps://www.strava.com/segment_efforts/1\t211\t\t"] := by
  refine ⟨rfl, by decide, rfl, ?_, ?_, ?_, by with_unfolding_all rfl⟩
  · intro v rest h
    simp [firstTruthy, h]
  · intro vs h
    induction vs with
    | nil => rfl
    | cons v rest ih =>
        rw [firstTruthy, h v (List.mem_cons_self v rest)]
        simp only [Bool.false_eq_true, if_false]
        exact ih (fun x hx => h x (List.mem_cons_of_mem v hx))
  · intro e h1 h2 h3
    unfold wattsValue
    rw [h1]
    have h0 : Value.truthy (Value.num 0) = false := by decide
    simp [firstTruthy, h0, h2, h3]

/-- Witness for C10 at concrete inputs: 0 falls through to 211, and an
all-falsy chain renders the empty string. -/
theorem C10_zero_metric_witness :
    firstTruthy (Value.num 0 :: [Value.num 211]) = firstTruthy [Value.num 211] ∧
    round_metric (firstTruthy [Value.none, Value.str "", Value.num 0]) = "" ∧
    wattsValue zeroWattsEffort = zeroWattsEffort.watts :=
  ⟨C10_zero_metric_falls_through.2.2.2.1 (Value.num 0) [Value.num 211] (by decide),
   C10_zero_metric_falls_through.2.2.2.2.1 [Value.none, Value.str "", Value.num 0]
     (by decide),
   C10_zero_metric_falls_through.2.2.2.2.2.1 zeroWattsEffort rfl (by decide)
     (by decide)⟩

/-! ## C8: segment-id extraction from links -/

/-- C8 counterexample: on `…/segments/5/?filter=overall` the code takes
the chunk after the last `/` — which is `?filter=overall` — strips the
query inside it to the empty string and returns `""`, while the claim's
strip-query-first reading yields `"5"`. -/
theorem C8_counterexample_query_after_slash :
    segment_id_from_link "https://www.strava.com/segments/5/?filter=overall" = "" ∧
    claimSegmentId "https://www.strava.com/segments/5/?filter=overall" = "5" ∧
    segment_id_from_link "https://www.strava.com/segments/5/?filter=overall" ≠
      claimSegmentId "https://www.strava.com/segments/5/?filter=overall" := by
  refine ⟨by decide, by decide, by decide⟩

theorem mem_data_pyStrip {c : Char} {s : String} (h : c ∈ (pyStrip s).data) :
    c ∈ s.data := by
  have h1 : c ∈ ((s.data.dropWhile isSpc).reverse.dropWhile isSpc).reverse := h
  rw [List.mem_reverse] at h1
  have h2 := (List.dropWhile_sublist isSpc).subset h1
  rw [List.mem_reverse] at h2
  exact (List.dropWhile_sublist isSpc).subset h2

theorem mem_data_rstripSlash {c : Char} {s : String}
    (h : c ∈ (rstripSlash s).data) : c ∈ s.data := by
  have h1 : c ∈ (s.data.reverse.dropWhile (fun ch => decide (ch = '/'))).reverse := h
  rw [List.mem_reverse] at h1
  have h2 := (List.dropWhile_sublist _).subset h1
  rw [List.mem_reverse] at h2
  exact h2

theorem mem_data_lastSplitPart {c sep : Char} {s : String}
    (h : c ∈ (lastSplitPart sep s).data) : c ∈ s.data := by
  have h1 : c ∈ (s.data.reverse.takeWhile (fun ch => decide (ch ≠ sep))).reverse := h
  rw [List.mem_reverse] at h1
  have h2 := (List.takeWhile_sublist _).subset h1
  rw [List.mem_reverse] at h2
  exact h2

theorem beforeFirst_eq_self {sep : Char} {s : String} (h : sep ∉ s.data) :
    beforeFirst sep s = s := by
  show (⟨s.data.takeWhile (fun c => decide (c ≠ sep))⟩ : String) = s
  have heq : s.data.takeWhile (fun c => decide (c ≠ sep)) = s.data :=
    List.takeWhile_eq_self_iff.mpr (fun x hx => by
      rw [decide_eq_true_eq]
      rintro rfl
      exact h hx)
  rw [heq]

/-- C8 amended: `_segment_id_from_link` strips whitespace and trailing
slashes from the whole link, takes the chunk after the last remaining
slash, strips a query suffix (from `?`) and a fragment suffix (from `#`)
inside that chunk, and returns it only if purely numeric.  A nonempty
result is always purely numeric, the code agrees with the claim's
strip-query-first reading on every link free of `?` and `#`, query and
fragment suffixes inside the final chunk are stripped before validation,
but a query string that follows a slash (`…/5/?a=1`) yields `""` where
the claim's reading yields the id. -/
theorem C8_amended_segment_id_from_link :
    (∀ link : String, segment_id_from_link link ≠ "" →
      pyIsDigit (segment_id_from_link link) = true) ∧
    (∀ link : String, containsCh link '?' = false →
      containsCh link '#' = false →
      segment_id_from_link link = claimSegmentId link) ∧
    segment_id_from_link "https://www.strava.com/segments/2?filter=overall" = "2" ∧
    segment_id_from_link "https://www.strava.com/segments/7#frag" = "7" ∧
    segment_id_from_link "https://www.strava.com/segments/abc" = "" ∧
    segment_id_from_link "https://www.strava.com/segments/4580190/" = "4580190" ∧
    segment_id_from_link "https://www.strava.com/segments/5/?filter=overall" = "" := by
  refine ⟨?_, ?_, by decide, by decide, by decide, by decide, by decide⟩
  · intro link h
    simp only [segment_id_from_link] at h ⊢
    split_ifs at h ⊢
    any_goals exact absurd rfl h
    all_goals assumption
  · intro link hq hf
    by_cases h0 : link = ""
    · subst h0
      decide
    · have hqm : ('?' : Char) ∉ link.data := fun hm => by
        have ht : containsCh link '?' = true := List.elem_iff.mpr hm
        rw [hq] at ht
        exact Bool.noConfusion ht
      have hfm : ('#' : Char) ∉ link.data := fun hm => by
        have ht : containsCh link '#' = true := List.elem_iff.mpr hm
        rw [hf] at ht
        exact Bool.noConfusion ht
      have hqt : ('?' : Char) ∉ (pyStrip link).data :=
        fun hm => hqm (mem_data_pyStrip hm)
      have hft : ('#' : Char) ∉ (pyStrip link).data :=
        fun hm => hfm (mem_data_pyStrip hm)
      by_cases h1 : pyStrip link = ""
      · simp only [segment_id_from_link, claimSegmentId]
        rw [if_neg h0, if_pos h1, h1]
        decide
      · have hbq : beforeFirst '?' (pyStrip link) = pyStrip link :=
          beforeFirst_eq_self hqt
        have hql : ¬ (containsCh
            (lastSplitPart '/' (rstripSlash (pyStrip link))) '?' = true) :=
          fun htrue =>
            hqt (mem_data_rstripSlash (mem_data_lastSplitPart
              (List.elem_iff.mp htrue)))
        have hfl : ¬ (containsCh
            (lastSplitPart '/' (rstripSlash (pyStrip link))) '#' = true) :=
          fun htrue =>
            hft (mem_data_rstripSlash (mem_data_lastSplitPart
              (List.elem_iff.mp htrue)))
        simp only [segment_id_from_link, claimSegmentId]
        rw [if_neg h0, if_neg h1, hbq]
        have hbf : beforeFirst '#' (pyStrip link) = pyStrip link :=
          beforeFirst_eq_self hft
        rw [hbf, if_neg hql, if_neg hfl]

/-- Witness for C8's amended theorem: the validation property at a
nonempty extraction, and the claim-agreement on a clean link. -/
theorem C8_amended_witness :
    pyIsDigit (segment_id_from_link "https://www.strava.com/segments/4580190") =
      true ∧
    segment_id_from_link "https://www.strava.com/segments/4580190" =
      claimSegmentId "https://www.strava.com/segments/4580190" :=
  ⟨C8_amended_segment_id_from_link.1 "https://www.strava.com/segments/4580190"
     (by decide),
   C8_amended_segment_id_from_link.2.1 "https://www.strava.com/segments/4580190"
     (by decide) (by decide)⟩

/-! ## First-occurrence deduplication -/

theorem mem_dedupFirst {α : Type} [DecidableEq α] {a : α} :
    ∀ {l : List α}, a ∈ dedupFirst l ↔ a ∈ l
  | [] => Iff.rfl
  | x :: xs => by
      simp only [dedupFirst, List.mem_cons, List.mem_filter,
        decide_eq_true_eq, mem_dedupFirst (l := xs)]
      constructor
      · rintro (rfl | ⟨hm, -⟩)
        · exact Or.inl rfl
        · exact Or.inr hm
      · rintro (rfl | hm)
        · exact Or.inl rfl
        · by_cases hax : a = x
          · exact Or.inl hax
          · exact Or.inr ⟨hm, hax⟩

theorem nodup_dedupFirst {α : Type} [DecidableEq α] :
    ∀ l : List α, (dedupFirst l).Nodup
  | [] => List.nodup_nil
  | x :: xs => by
      simp only [dedupFirst, List.nodup_cons]
      refine ⟨?_, (nodup_dedupFirst xs).filter _⟩
      intro hmem
      have h2 := (List.mem_filter.mp hmem).2
      simp at h2

theorem dedupFirst_concat {α : Type} [DecidableEq α] (a : α) :
    ∀ l : List α, dedupFirst (l ++ [a]) =
      if a ∈ l then dedupFirst l else dedupFirst l ++ [a]
  | [] => by simp [dedupFirst]
  | x :: xs => by
      rw [List.cons_append]
      simp only [dedupFirst]
      rw [dedupFirst_concat a xs]
      by_cases hax : a ∈ xs
      · rw [if_pos hax, if_pos (List.mem_cons_of_mem x hax)]
      · rw [if_neg hax]
        by_cases haxx : a = x
        · subst haxx
          rw [if_pos (List.mem_cons_self a xs), List.filter_append]
          simp
        · rw [if_neg (by simp [haxx, hax]), List.filter_append]
          simp [List.filter, haxx]

theorem dedupFirst_filter {α : Type} [DecidableEq α] (p : α → Bool) :
    ∀ l : List α, dedupFirst (l.filter p) = (dedupFirst l).filter p
  | [] => rfl
  | x :: xs => by
      by_cases hpx : p x = true
      · simp only [List.filter_cons, hpx, if_pos, dedupFirst,
          dedupFirst_filter p xs]
        rw [List.filter_filter, List.filter_filter]
        congr 1
        apply List.filter_congr
        intro y hy
        rw [Bool.and_comm]
      · simp only [List.filter_cons, hpx, dedupFirst, dedupFirst_filter p xs,
          Bool.false_eq_true, if_false]
        rw [List.filter_filter]
        apply List.filter_congr
        intro y hy
        by_cases hyx : y = x
        · subst hyx
          simp [hpx]
        · simp [hyx]

/-! ## C9: distinct segment ids in first-appearance order -/

theorem extractSegmentIdsGo_spec :
    ∀ (rows : List MetaRow) (seen : List String),
      extractSegmentIdsGo rows seen =
        dedupFirst ((rows.map sidOfRow).filter
          (fun s => decide (s ≠ "" ∧ s ∉ seen)))
  | [], _ => rfl
  | row :: rest, seen => by
      simp only [extractSegmentIdsGo, List.map_cons, List.filter_cons]
      by_cases hc : sidOfRow row ≠ "" ∧ sidOfRow row ∉ seen
      · rw [if_pos hc, extractSegmentIdsGo_spec rest (sidOfRow row :: seen),
          if_pos (by simpa using hc)]
        simp only [dedupFirst]
        congr 1
        rw [← dedupFirst_filter]
        congr 1
        rw [List.filter_filter]
        apply List.filter_congr
        intro y hy
        rw [Bool.eq_iff_iff]
        simp only [decide_eq_true_eq, Bool.and_eq_true, List.mem_cons, not_or]
        tauto
      · rw [if_neg hc, extractSegmentIdsGo_spec rest seen,
          if_neg (by simpa using hc)]

/-- C9: `extract_segment_ids` returns exactly the valid segment ids of
the rows, in first-appearance order with later duplicates removed and
rows yielding no valid id skipped; on rows whose links carry ids
1, 2, 1, 3 the result is `["1", "2", "3"]`. -/
theorem C9_extract_ids_first_seen_order :
    (∀ rows : List MetaRow,
      extract_segment_ids rows =
        dedupFirst ((rows.map sidOfRow).filter (fun s => decide (s ≠ "")))) ∧
    extract_segment_ids
      [[("Segment", "https://www.strava.com/segments/1")],
       [("Segment", "https://www.strava.com/segments/2?filter=overall")],
       [("Segment", "https://www.strava.com/segments/1")],
       [("Segment", "https://www.strava.com/segments/3")]] = ["1", "2", "3"] := by
  constructor
  · intro rows
    rw [extract_segment_ids, extractSegmentIdsGo_spec rows []]
    congr 1
    apply List.filter_congr
    intro y hy
    simp
  · decide

/-! ## C1: the reducer keeps one best record per key -/

theorem alGet_map_key_mem {κ β : Type} [DecidableEq κ] (w : κ → β) :
    ∀ (L : List κ) (k : κ), k ∈ L →
      alGet (L.map (fun k' => (k', w k'))) k = some (w k)
  | [], k, hk => absurd hk (List.not_mem_nil k)
  | x :: L, k, hk => by
      simp only [List.map_cons, alGet]
      by_cases hxk : x = k
      · subst hxk
        simp
      · rw [if_neg hxk]
        refine alGet_map_key_mem w L k ?_
        rcases List.mem_cons.mp hk with h | h
        · exact absurd h.symm hxk
        · exact h

theorem alGet_map_key_not_mem {κ β : Type} [DecidableEq κ] (w : κ → β) :
    ∀ (L : List κ) (k : κ), k ∉ L →
      alGet (L.map (fun k' => (k', w k'))) k = Option.none
  | [], _, _ => rfl
  | x :: L, k, hk => by
      simp only [List.map_cons, alGet]
      rw [if_neg (fun hxk : x = k => hk (hxk ▸ List.mem_cons_self x L))]
      exact alGet_map_key_not_mem w L k (fun hm => hk (List.mem_cons_of_mem x hm))

theorem alSet_map_key {κ β : Type} [DecidableEq κ] (w : κ → β) (v : β) :
    ∀ (L : List κ) (k : κ), L.Nodup → k ∈ L →
      alSet (L.map (fun k' => (k', w k'))) k v =
        L.map (fun k' => (k', if k' = k then v else w k'))
  | [], k, _, hk => absurd hk (List.not_mem_nil k)
  | x :: L, k, hnd, hk => by
      simp only [List.map_cons, alSet]
      by_cases hxk : x = k
      · subst hxk
        rw [if_pos rfl]
        have hx : x ∉ L := (List.nodup_cons.mp hnd).1
        simp only [if_pos rfl]
        congr 1
        apply List.map_congr_left
        intro y hy
        rw [if_neg (fun hyx : y = x => hx (hyx ▸ hy))]
      · rw [if_neg hxk]
        have hkL : k ∈ L := by
          rcases List.mem_cons.mp hk with h | h
          · exact absurd h.symm hxk
          · exact h
        rw [alSet_map_key w v L k (List.nodup_cons.mp hnd).2 hkL]
        simp only [if_neg hxk]

theorem groupBest_concat (g : List Effort) (e : Effort) (hg : g ≠ []) :
    groupBest (g ++ [e]) = betterOf (groupBest g) e := by
  cases g with
  | nil => exact absurd rfl hg
  | cons x xs =>
      show (xs ++ [e]).foldl betterOf x = _
      rw [List.foldl_append]
      rfl

/-- The reduction loop of `efforts_to_sheet_rows` computes exactly the
claim's description: one entry per distinct key in first-appearance
order, holding the group's retained record. -/
theorem reduceEfforts_spec (efforts : List Effort) :
    reduceEfforts efforts = claimReduce efforts := by
  induction efforts using List.reverseRecOn with
  | nil => rfl
  | append_singleton es e ih =>
      have hstep : reduceEfforts (es ++ [e]) = reduceStep (reduceEfforts es) e := by
        unfold reduceEfforts
        rw [List.foldl_append]
        rfl
      rw [hstep, ih]
      have hkeys : (es ++ [e]).map keyOf = es.map keyOf ++ [keyOf e] := by
        rw [List.map_append]
        rfl
      by_cases hmem : keyOf e ∈ es.map keyOf
      · have hmemd : keyOf e ∈ dedupFirst (es.map keyOf) := mem_dedupFirst.mpr hmem
        have hget : alGet (claimReduce es) (keyOf e) =
            some (groupBest (es.filter (fun x => decide (keyOf x = keyOf e)))) :=
          alGet_map_key_mem _ _ _ hmemd
        have hfil : ∀ k' : String × String, k' ≠ keyOf e →
            (es ++ [e]).filter (fun x => decide (keyOf x = k')) =
              es.filter (fun x => decide (keyOf x = k')) := by
          intro k' hkk
          rw [List.filter_append]
          simp [List.filter, Ne.symm hkk]
        have hfilk : (es ++ [e]).filter (fun x => decide (keyOf x = keyOf e)) =
            es.filter (fun x => decide (keyOf x = keyOf e)) ++ [e] := by
          rw [List.filter_append]
          simp [List.filter]
        have hne : es.filter (fun x => decide (keyOf x = keyOf e)) ≠ [] := by
          obtain ⟨x, hx, hkx⟩ := List.mem_map.mp hmem
          exact List.ne_nil_of_mem (List.mem_filter.mpr ⟨hx, by simp [hkx]⟩)
        have hdk : dedupFirst ((es ++ [e]).map keyOf) =
            dedupFirst (es.map keyOf) := by
          rw [hkeys, dedupFirst_concat, if_pos hmem]
        have hspec : claimReduce (es ++ [e]) =
            (dedupFirst (es.map keyOf)).map
              (fun k' => (k', if k' = keyOf e
                then betterOf
                  (groupBest (es.filter (fun x => decide (keyOf x = keyOf e)))) e
                else groupBest (es.filter (fun x => decide (keyOf x = k'))))) := by
          unfold claimReduce
          rw [hdk]
          apply List.map_congr_left
          intro k' hk'
          by_cases hkk : k' = keyOf e
          · subst hkk
            rw [if_pos rfl, hfilk, groupBest_concat _ _ hne]
          · rw [if_neg hkk, hfil k' hkk]
        rw [hspec]
        show (match alGet (claimReduce es) (keyOf e) with
          | Option.none => claimReduce es ++ [(keyOf e, e)]
          | some existing =>
              if elapsedLt (elapsed_seconds e.elapsedTime)
                  (elapsed_seconds existing.elapsedTime) then
                alSet (claimReduce es) (keyOf e) e
              else claimReduce es) = _
        rw [hget]
        show (if elapsedLt (elapsed_seconds e.elapsedTime)
            (elapsed_seconds (groupBest
              (es.filter (fun x => decide (keyOf x = keyOf e)))).elapsedTime) then
            alSet (claimReduce es) (keyOf e) e
          else claimReduce es) = _
        by_cases hlt : elapsedLt (elapsed_seconds e.elapsedTime)
            (elapsed_seconds (groupBest
              (es.filter (fun x => decide (keyOf x = keyOf e)))).elapsedTime) = true
        · rw [if_pos hlt]
          unfold claimReduce
          rw [alSet_map_key _ e _ _ (nodup_dedupFirst _) hmemd]
          apply List.map_congr_left
          intro k' hk'
          by_cases hkk : k' = keyOf e
          · subst hkk
            rw [if_pos rfl, if_pos rfl]
            unfold betterOf
            rw [if_pos hlt]
          · rw [if_neg hkk, if_neg hkk]
        · rw [if_neg hlt]
          unfold claimReduce
          apply List.map_congr_left
          intro k' hk'
          by_cases hkk : k' = keyOf e
          · subst hkk
            rw [if_pos rfl]
            unfold betterOf
            rw [if_neg hlt]
          · rw [if_neg hkk]
      · have hmemd : keyOf e ∉ dedupFirst (es.map keyOf) :=
          fun hmd => hmem (mem_dedupFirst.mp hmd)
        have hget : alGet (claimReduce es) (keyOf e) = Option.none :=
          alGet_map_key_not_mem _ _ _ hmemd
        show (match alGet (claimReduce es) (keyOf e) with
          | Option.none => claimReduce es ++ [(keyOf e, e)]
          | some existing =>
              if elapsedLt (elapsed_seconds e.elapsedTime)
                  (elapsed_seconds existing.elapsedTime) then
                alSet (claimReduce es) (keyOf e) e
              else claimReduce es) = _
        rw [hget]
        show claimReduce es ++ [(keyOf e, e)] = _
        have hdk : dedupFirst ((es ++ [e]).map keyOf) =
            dedupFirst (es.map keyOf) ++ [keyOf e] := by
          rw [hkeys, dedupFirst_concat, if_neg hmem]
        have hfilnil : es.filter (fun x => decide (keyOf x = keyOf e)) = [] := by
          rw [List.filter_eq_nil_iff]
          intro x hx
          simp only [decide_eq_true_eq]
          intro hkx
          exact hmem (List.mem_map.mpr ⟨x, hx, hkx⟩)
        unfold claimReduce
        rw [hdk, List.map_append]
        congr 1
        · apply List.map_congr_left
          intro k' hk'
          have hkk : k' ≠ keyOf e :=
            fun he => hmem (he ▸ mem_dedupFirst.mp hk')
          rw [List.filter_append]
          simp [List.filter, Ne.symm hkk]
        · show [(keyOf e, e)] = _
          rw [List.map_cons]
          rw [List.filter_append, hfilnil]
          simp [List.filter, groupBest]

/-- C1: the reducer inside `efforts_to_sheet_rows` emits exactly one
entry per distinct (segment, year) key in first-appearance order, the
retained record for a key being replaced only by a strictly smaller
elapsed time (ties keep the first-seen record); on the three example
records the output is exactly the two expected rows, the 120-second
record for 123 first and the 200-second record for 999 second. -/
theorem C1_reducer_best_per_key_first_seen :
    (∀ efforts : List Effort, reduceEfforts efforts = claimReduce efforts) ∧
    (∀ efforts : List Effort,
      (reduceEfforts efforts).map Prod.fst = dedupFirst (efforts.map keyOf)) ∧
    efforts_to_sheet_rows [c1Effort150, c1Effort120, c1Effort200] []
        Option.none =
      Except.ok
        ["2024\t123\tNAVN\t02:00\thttps://www.strava.com/segment_efforts/2\t\t\t",
         "2024\t999\tNAVN\t03:20\thttps://www.strava.com/segment_efforts/3\t\t\t"] := by
  refine ⟨reduceEfforts_spec, ?_, by with_unfolding_all rfl⟩
  intro efforts
  rw [reduceEfforts_spec, claimReduce, List.map_map]
  exact List.map_id _

end SegmentHistory
